import Mathlib

/-!
Shallow embedding of the `enum` Go package (tnnmigga/enum): a reflective
initializer that populates "enum-like" structs (string fields get their
name, integer fields get their index or a parsed `enum` tag, nested
structs recurse), plus the query helpers `Contains`, `Keys`, `Values`.

Go's `panic` control flow is modelled with `Except`: construction either
returns a fully built value or the first error raised.
-/

namespace EnumGo

/-- Integer bit widths of the Go integer kinds the package handles:
`reflect.Int`/`reflect.Uint` (native), and the fixed widths 8/16/32/64. -/
inductive Width : Type where
  | native : Width
  | w8 : Width
  | w16 : Width
  | w32 : Width
  | w64 : Width
deriving DecidableEq, Repr

mutual

/-- The shape of a Go type as seen through `reflect.Kind` by `initialize`:
string, signed/unsigned integer of some width, pointer, struct (with its
field list), or any other unsupported kind (bool, float, slice, map, ...),
remembered by its kind name. -/
inductive GoType : Type where
  | str : GoType
  | int : Width → GoType
  | uint : Width → GoType
  | ptr : GoType
  | strukt : FieldList → GoType
  | unsupported : String → GoType
deriving DecidableEq, Repr

/-- The declared fields of a struct, in declaration order. Each entry
carries the field name, the value of its `enum` tag (`""` when absent,
matching `reflect.StructTag.Get`), whether `reflect.Value.CanSet` holds
(false for unexported fields), and the field's type. -/
inductive FieldList : Type where
  | nil : FieldList
  | cons (name tag : String) (canSet : Bool) (typ : GoType) (rest : FieldList) : FieldList
deriving DecidableEq, Repr

end

mutual

/-- A runtime Go value of one of the kinds the package produces. Integer
values remember the declared width (the dynamic type), mirroring Go
interface values. `ptrNil` and `otherZero` stand for zero values of
pointer and unsupported kinds, which skipped fields retain. -/
inductive Value : Type where
  | str : String → Value
  | intV : Width → Int → Value
  | uintV : Width → Nat → Value
  | ptrNil : Value
  | otherZero : String → Value
  | structV : ValueList → Value
deriving DecidableEq, Repr

/-- The field values of a struct value, paired with the field names, in
declaration order. -/
inductive ValueList : Type where
  | nil : ValueList
  | cons (name : String) (v : Value) (rest : ValueList) : ValueList
deriving DecidableEq, Repr

end

mutual

/-- The zero value of a Go type: what a freshly allocated field holds
before `initialize` touches it (and keeps if the field is skipped). -/
def zeroValue : GoType → Value
  | .str => .str ""
  | .int w => .intV w 0
  | .uint w => .uintV w 0
  | .ptr => .ptrNil
  | .strukt fs => .structV (zeroValues fs)
  | .unsupported k => .otherZero k

/-- Zero values of a whole field list. -/
def zeroValues : FieldList → ValueList
  | .nil => .nil
  | .cons name _ _ typ rest => .cons name (zeroValue typ) (zeroValues rest)

end

/-- Numeric value of a list of decimal digit characters, `none` if the
list is empty or contains a non-digit. Mirrors the digit loop of Go's
`strconv.ParseUint` at base 10 (underscores are rejected at base 10). -/
def parseDigits : List Char → Option Nat
  | [] => none
  | [c] => if c.isDigit then some (c.toNat - 48) else none
  | c :: cs =>
    if c.isDigit then
      match parseDigits cs with
      | some n => some ((c.toNat - 48) * 10 ^ cs.length + n)
      | none => none
    else none

/-- Model of Go `strconv.ParseInt(s, 10, 64)`: an optional `+`/`-` sign
followed by one or more decimal digits, whose value fits in a signed
64-bit integer; every other input (including a well-formed numeral out
of the 64-bit range, Go's `ErrRange`) yields an error, here `none`. -/
def parseInt64 (s : String) : Option Int :=
  match s.data with
  | [] => none
  | c :: rest =>
    let neg := c = '-'
    let digits := if c = '-' ∨ c = '+' then rest else c :: rest
    match parseDigits digits with
    | none => none
    | some n =>
      if neg then
        if n ≤ 2 ^ 63 then some (-(n : Int)) else none
      else
        if n ≤ 2 ^ 63 - 1 then some (n : Int) else none

/-- Model of Go `strconv.ParseUint(s, 10, 64)`: one or more decimal
digits, no sign permitted, value at most `2^64 - 1`; anything else
(including Go's `ErrRange`) yields `none`. -/
def parseUint64 (s : String) : Option Nat :=
  match parseDigits s.data with
  | none => none
  | some n => if n ≤ 2 ^ 64 - 1 then some n else none

/-- The errors `initialize` can raise (Go panics, carried here in
`Except`). Each constructor keeps the data the Go panic message
interpolates: field name, offending value, violated range, kind name. -/
inductive InitError : Type where
  | notStruct (t : GoType) : InitError
  | pointerField (name : String) : InitError
  | tagParseErr (name tag : String) : InitError
  | intOverflow (name : String) (v lo hi : Int) : InitError
  | uintOverflow (name : String) (v hi : Nat) : InitError
  | unsupportedKind (name kind : String) : InitError
deriving DecidableEq, Repr

/-- Model of `checkIntOverflow`: for widths 8/16/32 report the violated
range `(lo, hi)` when `value` falls outside it; `reflect.Int` and
`reflect.Int64` need no check. `none` means no overflow. -/
def checkIntOverflow (value : Int) (w : Width) : Option (Int × Int) :=
  match w with
  | .w8 => if value < -(2 ^ 7) ∨ value > 2 ^ 7 - 1 then some (-(2 ^ 7), 2 ^ 7 - 1) else none
  | .w16 => if value < -(2 ^ 15) ∨ value > 2 ^ 15 - 1 then some (-(2 ^ 15), 2 ^ 15 - 1) else none
  | .w32 => if value < -(2 ^ 31) ∨ value > 2 ^ 31 - 1 then some (-(2 ^ 31), 2 ^ 31 - 1) else none
  | .native => none
  | .w64 => none

/-- Model of `checkUintOverflow`: for widths 8/16/32 report the upper
bound of the violated range `[0, hi]` when `value` exceeds it;
`reflect.Uint` and `reflect.Uint64` need no check. -/
def checkUintOverflow (value : Nat) (w : Width) : Option Nat :=
  match w with
  | .w8 => if value > 2 ^ 8 - 1 then some (2 ^ 8 - 1) else none
  | .w16 => if value > 2 ^ 16 - 1 then some (2 ^ 16 - 1) else none
  | .w32 => if value > 2 ^ 32 - 1 then some (2 ^ 32 - 1) else none
  | .native => none
  | .w64 => none

/-- The value-resolution step of the signed-integer case of
`initialize`: `value := int64(i)`, overwritten by `ParseInt(tagVal,
10, 64)` when the tag is non-empty; `none` when that parse fails. -/
def resolvedInt (tag : String) (i : Nat) : Option Int :=
  if tag ≠ "" then parseInt64 tag else some (Int.ofNat i)

/-- The value-resolution step of the unsigned-integer case of
`initialize`: `value := uint64(i)`, overwritten by `ParseUint(tagVal,
10, 64)` when the tag is non-empty; `none` when that parse fails. -/
def resolvedUint (tag : String) (i : Nat) : Option Nat :=
  if tag ≠ "" then parseUint64 tag else some i

mutual

/-- The field loop of `initialize`: processes each field at its loop
index `i` via `initField`, stopping at the first error (Go panic). -/
def initFields : FieldList → Nat → Except InitError ValueList
  | .nil, _ => .ok .nil
  | .cons name tag canSet typ rest, i =>
    match initField name tag canSet typ i with
    | .error e => .error e
    | .ok v =>
      match initFields rest (i + 1) with
      | .error e => .error e
      | .ok vs => .ok (.cons name v vs)

/-- One iteration of the field loop of `initialize`, at loop index `i`:
skip non-assignable fields (the field keeps its zero value), reject
pointer fields, recurse into struct fields (the recursive
`initialize` call receives a type that is statically a struct, so its
non-struct check passes and it runs the loop on the nested fields,
index starting again at 0), fill string fields with the tag or the
field name, fill integer fields with the parsed tag or the index `i`
after the overflow check, and reject every other kind. -/
def initField (name tag : String) (canSet : Bool) (typ : GoType) (i : Nat) :
    Except InitError Value :=
  if !canSet then .ok (zeroValue typ)
  else
    match typ with
    | .ptr => .error (.pointerField name)
    | .strukt fs =>
      match initFields fs 0 with
      | .error e => .error e
      | .ok vs => .ok (.structV vs)
    | .str => .ok (.str (if tag ≠ "" then tag else name))
    | .int w =>
      match resolvedInt tag i with
      | none => .error (.tagParseErr name tag)
      | some v =>
        match checkIntOverflow v w with
        | some (lo, hi) => .error (.intOverflow name v lo hi)
        | none => .ok (.intV w v)
    | .uint w =>
      match resolvedUint tag i with
      | none => .error (.tagParseErr name tag)
      | some v =>
        match checkUintOverflow v w with
        | some hi => .error (.uintOverflow name v hi)
        | none => .ok (.uintV w v)
    | .unsupported k => .error (.unsupportedKind name k)

end

/-- Model of `initialize(val, typ)` from `enum.go`: errors unless the
type is a struct, otherwise populates every field in declaration order
(loop index starting at 0) and returns the built struct value. -/
def initType : GoType → Except InitError Value
  | .strukt fs =>
    match initFields fs 0 with
    | .error e => .error e
    | .ok vs => .ok (.structV vs)
  | t => .error (.notStruct t)

/-- Model of `New[T]()`: allocates a zero `T` and initializes it
recursively; the whole construction succeeds or aborts with the first
error. -/
def New (t : GoType) : Except InitError Value := initType t

/-- Field descriptor at position `k` of a field list (name, tag,
assignability, type). -/
def FieldList.get? : FieldList → Nat → Option (String × String × Bool × GoType)
  | .nil, _ => none
  | .cons name tag canSet typ _, 0 => some (name, tag, canSet, typ)
  | .cons _ _ _ _ rest, k + 1 => FieldList.get? rest k

/-- Declared field names, in declaration order. -/
def FieldList.names : FieldList → List String
  | .nil => []
  | .cons name _ _ _ rest => name :: FieldList.names rest

/-- Number of declared fields. -/
def FieldList.length : FieldList → Nat
  | .nil => 0
  | .cons _ _ _ _ rest => FieldList.length rest + 1

/-- Entry at position `k` of a struct value's field list. -/
def ValueList.get? : ValueList → Nat → Option (String × Value)
  | .nil, _ => none
  | .cons name v _, 0 => some (name, v)
  | .cons _ _ rest, k + 1 => ValueList.get? rest k

/-- Field names of a struct value, in declaration order. -/
def ValueList.names : ValueList → List String
  | .nil => []
  | .cons name _ rest => name :: ValueList.names rest

/-- Plain list of the (name, value) pairs of a struct value. -/
def ValueList.toList : ValueList → List (String × Value)
  | .nil => []
  | .cons name v rest => (name, v) :: ValueList.toList rest

/-- The leaf kinds the query helper `Values` can be instantiated at:
string, or a signed/unsigned integer of a given width (Go's type
parameter `T` in `Values[T]`). -/
inductive LeafKind : Type where
  | strK : LeafKind
  | intK : Width → LeafKind
  | uintK : Width → LeafKind
deriving DecidableEq, Repr

/-- The leaf kind of a runtime value (its dynamic type), `none` for
nested struct values and zero values of unsupported kinds. -/
def leafKindOf : Value → Option LeafKind
  | .str _ => some .strK
  | .intV w _ => some (.intK w)
  | .uintV w _ => some (.uintK w)
  | _ => none

/-- The leaf kind a field type declares, `none` for non-leaf kinds. -/
def declLeafKind : GoType → Option LeafKind
  | .str => some .strK
  | .int w => some (.intK w)
  | .uint w => some (.uintK w)
  | _ => none

/-- Whether some direct field value equals the candidate. -/
def ValueList.containsVal : ValueList → Value → Bool
  | .nil, _ => false
  | .cons _ v rest, cand =>
    if v = cand then true else ValueList.containsVal rest cand

/-- Modelled from the spec: the query helper `Contains` of the enum
package, whose implementation is not among the provided source files
(only its tests and README examples are). Per the spec it reports
whether any direct (non-recursive) field of the instance holds a value
equal to the candidate under natural equality for the candidate's type,
never raises, and yields false on non-struct inputs. -/
def Contains (inst : Value) (cand : Value) : Bool :=
  match inst with
  | .structV vs => vs.containsVal cand
  | _ => false

/-- Modelled from the spec: the query helper `Keys` of the enum package,
whose implementation is not among the provided source files. Per the
spec it returns the direct field names of the instance in declaration
order regardless of field kind, and an empty sequence on non-struct
inputs (the tests show `Keys(123) = nil`). -/
def Keys (inst : Value) : List String :=
  match inst with
  | .structV vs => vs.names
  | _ => []

/-- Direct field values whose dynamic leaf kind matches `k`, in order. -/
def ValueList.valuesOfKind (k : LeafKind) : ValueList → List Value
  | .nil => []
  | .cons _ v rest =>
    if leafKindOf v = some k then v :: ValueList.valuesOfKind k rest
    else ValueList.valuesOfKind k rest

/-- Modelled from the spec: the query helper `Values[T]` of the enum
package, whose implementation is not among the provided source files.
Per the spec it returns the direct field values whose kind matches the
requested leaf kind exactly, in declaration order, skipping all other
fields (nested struct fields always), and an empty sequence on
non-struct inputs. -/
def Values (k : LeafKind) (inst : Value) : List Value :=
  match inst with
  | .structV vs => vs.valuesOfKind k
  | _ => []

/-- Spec-side reading of the `Values` contract for claim comparison: the
values of a built instance at exactly the positions whose DECLARED field
type has the requested leaf kind, in declaration order. -/
def specValues (k : LeafKind) : FieldList → ValueList → List Value
  | .cons _ _ _ typ frest, .cons _ v vrest =>
    if declLeafKind typ = some k then v :: specValues k frest vrest
    else specValues k frest vrest
  | _, _ => []

/-- The struct shape of `TestStringEnum` / `TestContains` / `TestKeys` /
`TestValues`: three exported string fields, no tags. -/
def strShapeFields : FieldList :=
  .cons "StatusOK" "" true .str
    (.cons "StatusNotFound" "" true .str
      (.cons "StatusInternalServerError" "" true .str .nil))

/-- The struct shape of `TestIntegerEnum`: three exported `int` fields
tagged `200`, `404`, `500`. -/
def intShapeFields : FieldList :=
  .cons "StatusOK" "200" true (.int .native)
    (.cons "StatusNotFound" "404" true (.int .native)
      (.cons "StatusInternalServerError" "500" true (.int .native) .nil))

/-- The nested struct shape of `TestNestedEnum`: a `Code` struct of
tagged ints and a `Type` struct of untagged strings. -/
def nestedShapeFields : FieldList :=
  .cons "Code" "" true (.strukt intShapeFields)
    (.cons "Type" "" true (.strukt strShapeFields) .nil)

/-- The values `TestIntegerEnum` expects: 200, 404, 500. -/
def intShapeValues : ValueList :=
  .cons "StatusOK" (.intV .native 200)
    (.cons "StatusNotFound" (.intV .native 404)
      (.cons "StatusInternalServerError" (.intV .native 500) .nil))

/-- The values `TestStringEnum` expects: each field's own name. -/
def strShapeValues : ValueList :=
  .cons "StatusOK" (.str "StatusOK")
    (.cons "StatusNotFound" (.str "StatusNotFound")
      (.cons "StatusInternalServerError" (.str "StatusInternalServerError") .nil))

/-- The values `TestNestedEnum` expects: the two sub-instances. -/
def nestedShapeValues : ValueList :=
  .cons "Code" (.structV intShapeValues) (.cons "Type" (.structV strShapeValues) .nil)

/-- A two-field shape with a tagged signed field and an untagged
unsigned field, exercising both integer rules. -/
def mixedIntUintFields : FieldList :=
  .cons "A" "200" true (.int .native) (.cons "B" "" true (.uint .w8) .nil)

/-- A two-field string shape with one tagged and one untagged field. -/
def taggedStrFields : FieldList :=
  .cons "A" "x" true .str (.cons "B" "" true .str .nil)

/-- A shape whose only field is an exported (assignable) pointer. -/
def ptrShapeFields : FieldList := .cons "q" "" true .ptr .nil

/-- A well-formed decimal numeral equal to `2^63`, one past the largest
signed 64-bit value: `strconv.ParseInt` rejects it with `ErrRange`. -/
def bigTag : String := "9223372036854775808"

/-! Helper lemmas about the initializer. -/

/-- A successful construction of a struct type always yields a struct
value built by the field loop. -/
theorem initType_strukt_ok_exists (fs : FieldList) (v : Value)
    (h : initType (.strukt fs) = Except.ok v) :
    ∃ vs, v = .structV vs ∧ initFields fs 0 = Except.ok vs := by
  simp only [initType] at h
  cases hr : initFields fs 0 with
  | error e => rw [hr] at h; exact absurd h (by simp)
  | ok vs =>
    rw [hr] at h
    dsimp only at h
    simp only [Except.ok.injEq] at h
    exact ⟨vs, h.symm, rfl⟩

/-- Successful construction of a struct value is exactly a successful
run of the field loop from index 0. -/
theorem initType_strukt_ok (fs : FieldList) (vs : ValueList) :
    initType (.strukt fs) = Except.ok (.structV vs) ↔ initFields fs 0 = Except.ok vs := by
  unfold initType
  cases h : initFields fs 0 <;> simp [h]

/-- When the field loop succeeds, the value at position `k` comes from
running the loop body `initField` on the `k`-th declared field at loop
index `i + k`. -/
theorem initFields_get :
    ∀ (fs : FieldList) (i : Nat) (vs : ValueList),
      initFields fs i = Except.ok vs →
      ∀ (k : Nat) (name tag : String) (c : Bool) (typ : GoType),
        fs.get? k = some (name, tag, c, typ) →
        ∃ v, vs.get? k = some (name, v) ∧ initField name tag c typ (i + k) = Except.ok v
  | .nil, _, _, _, k, _, _, _, _, hk => by simp [FieldList.get?] at hk
  | .cons n t c ty rest, i, vs, h, k, name, tag, cs, typ, hk => by
    rw [initFields] at h
    cases hf : initField n t c ty i with
    | error e => rw [hf] at h; exact absurd h (by simp)
    | ok v =>
      rw [hf] at h
      cases hr : initFields rest (i + 1) with
      | error e => rw [hr] at h; exact absurd h (by simp)
      | ok vs' =>
        rw [hr] at h
        simp only [Except.ok.injEq] at h
        subst h
        cases k with
        | zero =>
          simp only [FieldList.get?, Option.some.injEq, Prod.mk.injEq] at hk
          obtain ⟨h1, h2, h3, h4⟩ := hk
          subst h1; subst h2; subst h3; subst h4
          exact ⟨v, rfl, by simpa using hf⟩
        | succ k' =>
          simp only [FieldList.get?] at hk
          obtain ⟨v', hv1, hv2⟩ := initFields_get rest (i + 1) vs' hr k' name tag cs typ hk
          refine ⟨v', by simpa [ValueList.get?] using hv1, ?_⟩
          have : i + (k' + 1) = i + 1 + k' := by omega
          rw [this]
          exact hv2

/-- A successful field loop preserves the declared field names, in
declaration order. -/
theorem initFields_names :
    ∀ (fs : FieldList) (i : Nat) (vs : ValueList),
      initFields fs i = Except.ok vs → vs.names = fs.names
  | .nil, _, vs, h => by
    rw [initFields] at h
    simp only [Except.ok.injEq] at h
    subst h
    rfl
  | .cons n t c ty rest, i, vs, h => by
    rw [initFields] at h
    cases hf : initField n t c ty i with
    | error e => rw [hf] at h; exact absurd h (by simp)
    | ok v =>
      rw [hf] at h
      cases hr : initFields rest (i + 1) with
      | error e => rw [hr] at h; exact absurd h (by simp)
      | ok vs' =>
        rw [hr] at h
        simp only [Except.ok.injEq] at h
        subst h
        simp [ValueList.names, FieldList.names, initFields_names rest (i + 1) vs' hr]

/-- A successful loop body yields a value of exactly the declared leaf
kind of the field's type (and no leaf kind for struct fields). -/
theorem initField_kind (name tag : String) (c : Bool) (typ : GoType) (i : Nat) (v : Value)
    (h : initField name tag c typ i = Except.ok v) : leafKindOf v = declLeafKind typ := by
  cases c with
  | false =>
    rw [initField.eq_def, if_pos (show ((!false) = true) from rfl)] at h
    simp only [Except.ok.injEq] at h
    subst h
    cases typ <;> rfl
  | true =>
    cases typ with
    | str =>
      simp only [initField, Bool.not_true, Bool.false_eq_true, if_false, Except.ok.injEq] at h
      subst h
      rfl
    | int w =>
      simp only [initField, Bool.not_true, Bool.false_eq_true, if_false] at h
      cases hres : resolvedInt tag i with
      | none => rw [hres] at h; exact absurd h (by simp)
      | some n =>
        rw [hres] at h
        dsimp only at h
        cases hchk : checkIntOverflow n w with
        | none =>
          rw [hchk] at h
          dsimp only at h
          simp only [Except.ok.injEq] at h
          subst h
          rfl
        | some p =>
          rw [hchk] at h
          exact absurd h (by cases p; simp)
    | uint w =>
      simp only [initField, Bool.not_true, Bool.false_eq_true, if_false] at h
      cases hres : resolvedUint tag i with
      | none => rw [hres] at h; exact absurd h (by simp)
      | some n =>
        rw [hres] at h
        dsimp only at h
        cases hchk : checkUintOverflow n w with
        | none =>
          rw [hchk] at h
          dsimp only at h
          simp only [Except.ok.injEq] at h
          subst h
          rfl
        | some p => rw [hchk] at h; exact absurd h (by simp)
    | ptr =>
      simp only [initField, Bool.not_true, Bool.false_eq_true, if_false] at h
      exact absurd h (by simp)
    | unsupported k =>
      simp only [initField, Bool.not_true, Bool.false_eq_true, if_false] at h
      exact absurd h (by simp)
    | strukt fs =>
      simp only [initField, Bool.not_true, Bool.false_eq_true, if_false] at h
      cases hr : initFields fs 0 with
      | error e => rw [hr] at h; exact absurd h (by simp)
      | ok vs =>
        rw [hr] at h
        dsimp only at h
        simp only [Except.ok.injEq] at h
        subst h
        rfl

/-- A successful loop body on an assignable signed-integer field means
the tag resolved to a value, the overflow check passed, and the stored
value is that resolved value at the declared width. -/
theorem initField_int_ok (name tag : String) (w : Width) (i : Nat) (v : Value)
    (h : initField name tag true (.int w) i = Except.ok v) :
    ∃ n : Int, v = .intV w n ∧ resolvedInt tag i = some n ∧ checkIntOverflow n w = none := by
  simp only [initField, Bool.not_true, Bool.false_eq_true, if_false] at h
  cases hres : resolvedInt tag i with
  | none => rw [hres] at h; exact absurd h (by simp)
  | some n =>
    rw [hres] at h
    dsimp only at h
    cases hchk : checkIntOverflow n w with
    | none =>
      rw [hchk] at h
      dsimp only at h
      simp only [Except.ok.injEq] at h
      exact ⟨n, h.symm, rfl, hchk⟩
    | some p =>
      rw [hchk] at h
      exact absurd h (by cases p; simp)

/-- A successful loop body on an assignable unsigned-integer field means
the tag resolved to a value, the overflow check passed, and the stored
value is that resolved value at the declared width. -/
theorem initField_uint_ok (name tag : String) (w : Width) (i : Nat) (v : Value)
    (h : initField name tag true (.uint w) i = Except.ok v) :
    ∃ n : Nat, v = .uintV w n ∧ resolvedUint tag i = some n ∧ checkUintOverflow n w = none := by
  simp only [initField, Bool.not_true, Bool.false_eq_true, if_false] at h
  cases hres : resolvedUint tag i with
  | none => rw [hres] at h; exact absurd h (by simp)
  | some n =>
    rw [hres] at h
    dsimp only at h
    cases hchk : checkUintOverflow n w with
    | none =>
      rw [hchk] at h
      dsimp only at h
      simp only [Except.ok.injEq] at h
      exact ⟨n, h.symm, rfl, hchk⟩
    | some p => rw [hchk] at h; exact absurd h (by simp)

/-- A successful loop body on an assignable struct field is a successful
recursive run of the field loop on the nested fields from index 0. -/
theorem initField_strukt_ok (name tag : String) (inner : FieldList) (i : Nat) (v : Value)
    (h : initField name tag true (.strukt inner) i = Except.ok v) :
    ∃ ivs, v = .structV ivs ∧ initFields inner 0 = Except.ok ivs := by
  simp only [initField, Bool.not_true, Bool.false_eq_true, if_false] at h
  cases hr : initFields inner 0 with
  | error e => rw [hr] at h; exact absurd h (by simp)
  | ok ivs =>
    rw [hr] at h
    dsimp only at h
    simp only [Except.ok.injEq] at h
    exact ⟨ivs, h.symm, rfl⟩

/-- `checkIntOverflow` passes exactly on the in-range values of each
checked width, and always on `int`/`int64`. -/
theorem checkIntOverflow_none_iff (v : Int) :
    (checkIntOverflow v .w8 = none ↔ -128 ≤ v ∧ v ≤ 127) ∧
    (checkIntOverflow v .w16 = none ↔ -32768 ≤ v ∧ v ≤ 32767) ∧
    (checkIntOverflow v .w32 = none ↔ -2147483648 ≤ v ∧ v ≤ 2147483647) ∧
    checkIntOverflow v .native = none ∧ checkIntOverflow v .w64 = none := by
  refine ⟨?_, ?_, ?_, rfl, rfl⟩ <;>
    · simp only [checkIntOverflow, ite_eq_right_iff]
      constructor
      · intro h
        by_contra hc
        simp only [not_and_or, not_le] at hc
        exact Option.noConfusion (h (by norm_num; omega))
      · intro h hif
        exfalso
        norm_num at hif
        omega

/-- `checkUintOverflow` passes exactly on the in-range values of each
checked width, and always on `uint`/`uint64`. -/
theorem checkUintOverflow_none_iff (v : Nat) :
    (checkUintOverflow v .w8 = none ↔ v ≤ 255) ∧
    (checkUintOverflow v .w16 = none ↔ v ≤ 65535) ∧
    (checkUintOverflow v .w32 = none ↔ v ≤ 4294967295) ∧
    checkUintOverflow v .native = none ∧ checkUintOverflow v .w64 = none := by
  refine ⟨?_, ?_, ?_, rfl, rfl⟩ <;>
    · simp only [checkUintOverflow, ite_eq_right_iff]
      constructor
      · intro h
        by_contra hc
        simp only [not_le] at hc
        exact Option.noConfusion (h (by norm_num; omega))
      · intro h hif
        exfalso
        norm_num at hif
        omega

/-- `containsVal` is true exactly when some entry holds the candidate. -/
theorem containsVal_iff :
    ∀ (vs : ValueList) (cand : Value),
      vs.containsVal cand = true ↔ ∃ p ∈ vs.toList, p.2 = cand
  | .nil, cand => by simp [ValueList.containsVal, ValueList.toList]
  | .cons n v rest, cand => by
    simp only [ValueList.containsVal, ValueList.toList, List.mem_cons]
    by_cases hv : v = cand
    · subst hv
      simp
    · rw [if_neg hv, containsVal_iff rest cand]
      constructor
      · rintro ⟨p, hp, hpc⟩
        exact ⟨p, Or.inr hp, hpc⟩
      · rintro ⟨p, hp | hp, hpc⟩
        · subst hp; exact absurd hpc hv
        · exact ⟨p, hp, hpc⟩

/-- After a successful field loop, filtering the built values by their
dynamic kind agrees with filtering the declared fields by their declared
kind: the basis of the `Values` contract. -/
theorem valuesOfKind_eq_specValues :
    ∀ (fs : FieldList) (i : Nat) (vs : ValueList) (k : LeafKind),
      initFields fs i = Except.ok vs → vs.valuesOfKind k = specValues k fs vs
  | .nil, _, vs, k, h => by
    rw [initFields] at h
    simp only [Except.ok.injEq] at h
    subst h
    rfl
  | .cons n t c ty rest, i, vs, k, h => by
    rw [initFields] at h
    cases hf : initField n t c ty i with
    | error e => rw [hf] at h; exact absurd h (by simp)
    | ok v =>
      rw [hf] at h
      cases hr : initFields rest (i + 1) with
      | error e => rw [hr] at h; exact absurd h (by simp)
      | ok vs' =>
        rw [hr] at h
        simp only [Except.ok.injEq] at h
        subst h
        have hkind := initField_kind n t c ty i v hf
        have ih := valuesOfKind_eq_specValues rest (i + 1) vs' k hr
        simp only [ValueList.valuesOfKind, specValues, hkind, ih]

/-! The claims. -/

/-- C1: For every signed or unsigned integer-kind assignable field of
the current struct, the constructed value equals the base-10 parse of
its attached annotation when that annotation is present and non-empty,
and otherwise equals the field's zero-based declaration position within
the current struct. -/
theorem claim1_integer_values (fs : FieldList) (vs : ValueList)
    (h : New (.strukt fs) = Except.ok (.structV vs))
    (k : Nat) (name tag : String) (w : Width) :
    (fs.get? k = some (name, tag, true, .int w) →
      ∃ v : Int, vs.get? k = some (name, .intV w v) ∧
        (if tag ≠ "" then parseInt64 tag = some v else v = (k : Int))) ∧
    (fs.get? k = some (name, tag, true, .uint w) →
      ∃ v : Nat, vs.get? k = some (name, .uintV w v) ∧
        (if tag ≠ "" then parseUint64 tag = some v else v = k)) := by
  have hinit : initFields fs 0 = Except.ok vs := (initType_strukt_ok fs vs).mp h
  constructor
  · intro hf
    obtain ⟨v, hv, hfield⟩ := initFields_get fs 0 vs hinit k name tag true (.int w) hf
    obtain ⟨n, rfl, hres, hchk⟩ := initField_int_ok name tag w (0 + k) v hfield
    refine ⟨n, hv, ?_⟩
    unfold resolvedInt at hres
    by_cases ht : tag ≠ ""
    · rw [if_pos ht] at hres ⊢
      exact hres
    · rw [if_neg ht] at hres ⊢
      simp only [Option.some.injEq, Int.ofNat_eq_natCast] at hres
      omega
  · intro hf
    obtain ⟨v, hv, hfield⟩ := initFields_get fs 0 vs hinit k name tag true (.uint w) hf
    obtain ⟨n, rfl, hres, hchk⟩ := initField_uint_ok name tag w (0 + k) v hfield
    refine ⟨n, hv, ?_⟩
    unfold resolvedUint at hres
    by_cases ht : tag ≠ ""
    · rw [if_pos ht] at hres ⊢
      exact hres
    · rw [if_neg ht] at hres ⊢
      simp only [Option.some.injEq] at hres
      omega

/-- C1 witness: on the two-field shape with a signed field tagged `200`
and an untagged unsigned field at position 1, construction stores 200
and 1 respectively. -/
theorem claim1_witness :
    (∃ v : Int,
      (ValueList.cons "A" (.intV .native 200) (.cons "B" (.uintV .w8 1) .nil)).get? 0 =
        some ("A", .intV .native v) ∧
      (if "200" ≠ "" then parseInt64 "200" = some v else v = ((0 : Nat) : Int))) ∧
    (∃ v : Nat,
      (ValueList.cons "A" (.intV .native 200) (.cons "B" (.uintV .w8 1) .nil)).get? 1 =
        some ("B", .uintV .w8 v) ∧
      (if "" ≠ "" then parseUint64 "" = some v else v = 1)) :=
  ⟨(claim1_integer_values mixedIntUintFields
      (.cons "A" (.intV .native 200) (.cons "B" (.uintV .w8 1) .nil))
      rfl 0 "A" "200" .native).1 rfl,
   (claim1_integer_values mixedIntUintFields
      (.cons "A" (.intV .native 200) (.cons "B" (.uintV .w8 1) .nil))
      rfl 1 "B" "" .w8).2 rfl⟩

/-- C2: For every string-kind assignable field, the constructed value
equals the attached annotation when it is present and non-empty, and
otherwise equals the field's own declared name. -/
theorem claim2_string_values (fs : FieldList) (vs : ValueList)
    (h : New (.strukt fs) = Except.ok (.structV vs))
    (k : Nat) (name tag : String)
    (hf : fs.get? k = some (name, tag, true, .str)) :
    vs.get? k = some (name, .str (if tag ≠ "" then tag else name)) := by
  have hinit : initFields fs 0 = Except.ok vs := (initType_strukt_ok fs vs).mp h
  obtain ⟨v, hv, hfield⟩ := initFields_get fs 0 vs hinit k name tag true .str hf
  have hval : v = .str (if tag ≠ "" then tag else name) := by
    simp only [initField, Bool.not_true, Bool.false_eq_true, if_false, Except.ok.injEq] at hfield
    exact hfield.symm
  rw [hval] at hv
  exact hv

/-- C2 witness: a string field tagged `x` gets `x`, an untagged string
field named `B` gets `B`. -/
theorem claim2_witness :
    (ValueList.cons "A" (.str "x") (.cons "B" (.str "B") .nil)).get? 0 =
      some ("A", .str (if "x" ≠ "" then "x" else "A")) ∧
    (ValueList.cons "A" (.str "x") (.cons "B" (.str "B") .nil)).get? 1 =
      some ("B", .str (if "" ≠ "" then "" else "B")) :=
  ⟨claim2_string_values taggedStrFields
      (.cons "A" (.str "x") (.cons "B" (.str "B") .nil)) rfl 0 "A" "x" rfl,
   claim2_string_values taggedStrFields
      (.cons "A" (.str "x") (.cons "B" (.str "B") .nil)) rfl 1 "B" "" rfl⟩

/-- C3: Overflow is raised exactly when the resolved value (parsed tag
or positional default) lies outside the declared width's range — signed
8/16/32-bit ranges [-128,127], [-32768,32767],
[-2147483648,2147483647]; unsigned [0,255], [0,65535], [0,4294967295] —
while native/64-bit integer fields have no narrower check and never
raise an overflow error. -/
theorem claim3_overflow_ranges (name tag : String) (w : Width) (i : Nat) (v : Int) (u : Nat) :
    (checkIntOverflow v .w8 = none ↔ -128 ≤ v ∧ v ≤ 127) ∧
    (checkIntOverflow v .w16 = none ↔ -32768 ≤ v ∧ v ≤ 32767) ∧
    (checkIntOverflow v .w32 = none ↔ -2147483648 ≤ v ∧ v ≤ 2147483647) ∧
    checkIntOverflow v .native = none ∧ checkIntOverflow v .w64 = none ∧
    (checkUintOverflow u .w8 = none ↔ u ≤ 255) ∧
    (checkUintOverflow u .w16 = none ↔ u ≤ 65535) ∧
    (checkUintOverflow u .w32 = none ↔ u ≤ 4294967295) ∧
    checkUintOverflow u .native = none ∧ checkUintOverflow u .w64 = none ∧
    (resolvedInt tag i = some v → ∀ lo hi, checkIntOverflow v w = some (lo, hi) →
      initField name tag true (.int w) i = .error (.intOverflow name v lo hi)) ∧
    (resolvedInt tag i = some v → checkIntOverflow v w = none →
      initField name tag true (.int w) i = .ok (.intV w v)) ∧
    (resolvedUint tag i = some u → ∀ hi, checkUintOverflow u w = some hi →
      initField name tag true (.uint w) i = .error (.uintOverflow name u hi)) ∧
    (resolvedUint tag i = some u → checkUintOverflow u w = none →
      initField name tag true (.uint w) i = .ok (.uintV w u)) := by
  obtain ⟨i8, i16, i32, inat, i64⟩ := checkIntOverflow_none_iff v
  obtain ⟨u8, u16, u32, unat, u64⟩ := checkUintOverflow_none_iff u
  refine ⟨i8, i16, i32, inat, i64, u8, u16, u32, unat, u64, ?_, ?_, ?_, ?_⟩
  · intro hres lo hi hchk
    simp only [initField, Bool.not_true, Bool.false_eq_true, if_false, hres, hchk]
  · intro hres hchk
    simp only [initField, Bool.not_true, Bool.false_eq_true, if_false, hres, hchk]
  · intro hres hi hchk
    simp only [initField, Bool.not_true, Bool.false_eq_true, if_false, hres, hchk]
  · intro hres hchk
    simp only [initField, Bool.not_true, Bool.false_eq_true, if_false, hres, hchk]

/-- C3 witness: an int8 field tagged `200` overflows with range
[-128, 127], a uint8 field tagged `256` overflows with range [0, 255],
and a native int field tagged `200` is accepted. -/
theorem claim3_witness :
    initField "A" "200" true (.int .w8) 0 = .error (.intOverflow "A" 200 (-128) 127) ∧
    initField "B" "256" true (.uint .w8) 0 = .error (.uintOverflow "B" 256 255) ∧
    initField "C" "200" true (.int .native) 0 = .ok (.intV .native 200) :=
  ⟨(claim3_overflow_ranges "A" "200" .w8 0 200 0).2.2.2.2.2.2.2.2.2.2.1 rfl (-128) 127 rfl,
   (claim3_overflow_ranges "B" "256" .w8 0 0 256).2.2.2.2.2.2.2.2.2.2.2.2.1 rfl 255 rfl,
   (claim3_overflow_ranges "C" "200" .native 0 200 0).2.2.2.2.2.2.2.2.2.2.2.1 rfl rfl⟩

/-- C4: Every assignable nested struct field is initialized by the same
recursive procedure with the loop index restarting at 0 for the nested
struct's own fields, and `Keys` on the outer instance returns only the
top-level field names. -/
theorem claim4_nested (fs : FieldList) (vs : ValueList)
    (h : New (.strukt fs) = Except.ok (.structV vs)) :
    (∀ (k : Nat) (name tag : String) (inner : FieldList),
      fs.get? k = some (name, tag, true, .strukt inner) →
      ∃ ivs, initFields inner 0 = Except.ok ivs ∧ vs.get? k = some (name, .structV ivs)) ∧
    Keys (.structV vs) = fs.names := by
  have hinit : initFields fs 0 = Except.ok vs := (initType_strukt_ok fs vs).mp h
  constructor
  · intro k name tag inner hf
    obtain ⟨v, hv, hfield⟩ := initFields_get fs 0 vs hinit k name tag true (.strukt inner) hf
    obtain ⟨ivs, rfl, hrec⟩ := initField_strukt_ok name tag inner (0 + k) v hfield
    exact ⟨ivs, hrec, hv⟩
  · exact initFields_names fs 0 vs hinit

/-- C4 witness: on the `TestNestedEnum` shape, the `Code` field holds
the recursively built sub-instance and the outer keys are exactly
`Code, Type`. -/
theorem claim4_witness :
    (∃ ivs, initFields intShapeFields 0 = Except.ok ivs ∧
      nestedShapeValues.get? 0 = some ("Code", .structV ivs)) ∧
    Keys (.structV nestedShapeValues) = ["Code", "Type"] :=
  ⟨(claim4_nested nestedShapeFields nestedShapeValues rfl).1 0 "Code" "" intShapeFields rfl,
   ((claim4_nested nestedShapeFields nestedShapeValues rfl).2.trans rfl)⟩

/-- C5 counterexample: a struct whose only field is a non-assignable
(unexported) pointer field is constructed successfully — the field is
silently skipped and left at its nil zero value, because the
`CanSet` check precedes the pointer check. The claim that a
pointer-kind field always fails construction regardless of
assignability is therefore false. -/
theorem claim5_counterexample :
    New (.strukt (.cons "p" "" false .ptr .nil)) =
      Except.ok (.structV (.cons "p" .ptrNil .nil)) := rfl

/-- C5 (amended): every assignable pointer-kind field fails the loop
body with the configuration error naming the field, and a struct
containing such a field can never be constructed; a non-assignable
pointer field, however, is silently skipped and left at its zero
value. -/
theorem claim5_pointer_rejection (name tag : String) (i : Nat) (fs : FieldList) (k : Nat) :
    initField name tag true .ptr i = .error (.pointerField name) ∧
    initField name tag false .ptr i = .ok (zeroValue .ptr) ∧
    (fs.get? k = some (name, tag, true, .ptr) →
      ∀ v, New (.strukt fs) ≠ Except.ok v) := by
  refine ⟨rfl, rfl, ?_⟩
  intro hf v hok
  obtain ⟨vs, rfl, hinit⟩ := initType_strukt_ok_exists fs v hok
  obtain ⟨v', _, hfield⟩ := initFields_get fs 0 vs hinit k name tag true .ptr hf
  rw [show initField name tag true .ptr (0 + k) =
        Except.error (.pointerField name) from rfl] at hfield
  exact Except.noConfusion hfield

/-- C5 witness: the loop body rejects the assignable pointer field `q`,
and the one-field struct around it cannot be constructed. -/
theorem claim5_witness :
    initField "q" "" true .ptr 0 = .error (.pointerField "q") ∧
    New (.strukt ptrShapeFields) ≠ Except.ok (.structV (.cons "q" .ptrNil .nil)) :=
  ⟨(claim5_pointer_rejection "q" "" 0 ptrShapeFields 0).1,
   (claim5_pointer_rejection "q" "" 0 ptrShapeFields 0).2.2 rfl _⟩

/-- C6 counterexample: the tag `9223372036854775808` on an 8-bit signed
field is a well-formed base-10 numeral (all digits) denoting `2^63`,
far outside [-128, 127], yet construction fails with the tag-parse
error, not an overflow error: `strconv.ParseInt` rejects it with
`ErrRange` before `checkIntOverflow` ever runs. -/
theorem claim6_counterexample :
    bigTag.data.all Char.isDigit = true ∧
    initField "A" bigTag true (.int .w8) 0 = .error (.tagParseErr "A" bigTag) ∧
    New (.strukt (.cons "A" bigTag true (.int .w8) .nil)) =
      .error (.tagParseErr "A" bigTag) := ⟨rfl, rfl, rfl⟩

/-- C6 (amended): for a signed integer field with a non-empty tag, if
the tag parses as a signed 64-bit base-10 integer whose value fails the
width's overflow check, construction fails with the overflow error
naming the field, the value and the violated range; if the tag fails
64-bit signed parsing (malformed, or a well-formed numeral beyond the
64-bit range), construction fails with the tag-parse error naming the
field. -/
theorem claim6_int_tag_errors (name tag : String) (w : Width) (i : Nat) (v : Int) :
    (tag ≠ "" → parseInt64 tag = some v → ∀ lo hi, checkIntOverflow v w = some (lo, hi) →
      initField name tag true (.int w) i = .error (.intOverflow name v lo hi)) ∧
    (tag ≠ "" → parseInt64 tag = none →
      initField name tag true (.int w) i = .error (.tagParseErr name tag)) := by
  constructor
  · intro ht hp lo hi hchk
    have hres : resolvedInt tag i = some v := by
      unfold resolvedInt
      rw [if_pos ht]
      exact hp
    simp only [initField, Bool.not_true, Bool.false_eq_true, if_false, hres, hchk]
  · intro ht hp
    have hres : resolvedInt tag i = none := by
      unfold resolvedInt
      rw [if_pos ht]
      exact hp
    simp only [initField, Bool.not_true, Bool.false_eq_true, if_false, hres]

/-- C6 witness: tag `300` on an int8 field raises the overflow error
with the value and range; tag `20x` raises the tag-parse error. -/
theorem claim6_witness :
    initField "A" "300" true (.int .w8) 3 = .error (.intOverflow "A" 300 (-128) 127) ∧
    initField "B" "20x" true (.int .w8) 0 = .error (.tagParseErr "B" "20x") :=
  ⟨(claim6_int_tag_errors "A" "300" .w8 3 300).1 (by decide) rfl (-128) 127 rfl,
   (claim6_int_tag_errors "B" "20x" .w8 0 0).2 (by decide) rfl⟩

/-- C7: Supplying a non-struct type to the initializer fails with the
shape error carrying that type, and construction is all-or-nothing: no
instance is returned. -/
theorem claim7_not_struct (t : GoType) (h : ∀ fs, t ≠ .strukt fs) :
    New t = .error (.notStruct t) ∧ ∀ v, New t ≠ Except.ok v := by
  have herr : New t = .error (.notStruct t) := by
    cases t with
    | strukt fs => exact absurd rfl (h fs)
    | str => rfl
    | int w => rfl
    | uint w => rfl
    | ptr => rfl
    | unsupported k => rfl
  refine ⟨herr, fun v hv => ?_⟩
  rw [herr] at hv
  exact Except.noConfusion hv

/-- C7 witness: a plain `int` type (the tests' `Keys(123)` analogue) is
rejected with the shape error. -/
theorem claim7_witness :
    New (.int .native) = .error (.notStruct (.int .native)) :=
  (claim7_not_struct (.int .native) (fun _ hf => GoType.noConfusion hf)).1

/-- C8: `Contains` returns true on a struct instance iff some direct
field holds a value equal to the candidate (equality of dynamic type
and value), and returns false on every non-struct input; it is a total
function, so it never raises. -/
theorem claim8_contains (vs : ValueList) (cand : Value) (s k : String) (w : Width)
    (n : Int) (m : Nat) :
    (Contains (.structV vs) cand = true ↔ ∃ p ∈ vs.toList, p.2 = cand) ∧
    Contains (.str s) cand = false ∧
    Contains (.intV w n) cand = false ∧
    Contains (.uintV w m) cand = false ∧
    Contains .ptrNil cand = false ∧
    Contains (.otherZero k) cand = false :=
  ⟨containsVal_iff vs cand, rfl, rfl, rfl, rfl, rfl⟩

/-- C9: `Values` on a built struct instance returns exactly the direct
field values whose declared kind matches the requested leaf kind, in
declaration order (nested struct fields are always skipped, and the
result is empty when nothing matches); `Keys` returns the direct field
names in declaration order regardless of kind; both are empty on
non-struct inputs. -/
theorem claim9_values_keys (fs : FieldList) (vs : ValueList) (k : LeafKind)
    (h : New (.strukt fs) = Except.ok (.structV vs)) (s : String) (w : Width) (n : Int) :
    Values k (.structV vs) = specValues k fs vs ∧
    Keys (.structV vs) = fs.names ∧
    Values k (.str s) = [] ∧ Keys (.str s) = [] ∧
    Values k (.intV w n) = [] ∧ Keys (.intV w n) = [] := by
  have hinit : initFields fs 0 = Except.ok vs := (initType_strukt_ok fs vs).mp h
  exact ⟨valuesOfKind_eq_specValues fs 0 vs k hinit,
    initFields_names fs 0 vs hinit, rfl, rfl, rfl, rfl⟩

/-- C9 witness: on the flat string shape of the tests, `Values` at the
string kind returns the three values in order, `Values` at the native
int kind returns the empty list, and `Keys` lists the three names. -/
theorem claim9_witness :
    Values .strK (.structV strShapeValues) =
      [.str "StatusOK", .str "StatusNotFound", .str "StatusInternalServerError"] ∧
    Values (.intK .native) (.structV strShapeValues) = ([] : List Value) ∧
    Keys (.structV strShapeValues) =
      ["StatusOK", "StatusNotFound", "StatusInternalServerError"] :=
  ⟨((claim9_values_keys strShapeFields strShapeValues .strK rfl "" .native 0).1).trans rfl,
   ((claim9_values_keys strShapeFields strShapeValues (.intK .native) rfl "" .native 0).1).trans rfl,
   ((claim9_values_keys strShapeFields strShapeValues .strK rfl "" .native 0).2.1).trans rfl⟩

/-- C10: A non-assignable field is skipped before the pointer check,
the kind dispatch and the unsupported-kind error ever run: the loop
body succeeds and leaves the field at its zero value for every field
type, and a struct containing only such a field is constructed without
error. -/
theorem claim10_skip_non_assignable (name tag : String) (typ : GoType) (i : Nat) :
    initField name tag false typ i = Except.ok (zeroValue typ) ∧
    New (.strukt (.cons name tag false typ .nil)) =
      Except.ok (.structV (.cons name (zeroValue typ) .nil)) := by
  have hskip : ∀ j : Nat, initField name tag false typ j = Except.ok (zeroValue typ) := by
    intro j
    rw [initField.eq_def, if_pos (show ((!false) = true) from rfl)]
  refine ⟨hskip i, ?_⟩
  show initType _ = _
  simp only [initType, initFields, hskip 0]

end EnumGo
